import Mathlib

/-!
Verification of the response capture and normalization pipeline of the
mlb-umpire repository (files `simple_umpire_scraper.py` and
`umpire_scorecard_scraper.py`).

The Python values flowing through the pipeline are JSON-decoded values;
we embed them as the inductive `Json` below (numbers restricted to
integers: the pipeline under study performs no arithmetic and the
behaviours being checked do not involve floating point).  Python `dict`s
are embedded as association lists together with `dictOfList`, which
reproduces the insertion-order/last-write-wins semantics of `dict(items)`.
-/

inductive Json where
  | null : Json
  | bool : Bool → Json
  | num : Int → Json
  | str : String → Json
  | arr : List Json → Json
  | obj : List (String × Json) → Json
deriving Repr

/-- A Record is a JSON mapping: string keys to JSON values.  Python dicts
have unique keys; theorems that need that fact carry it as a `Nodup`
hypothesis. -/
abbrev Record := List (String × Json)

/-- Python dict assignment `d[k] = v`: an existing key keeps its position
and gets the new value; a fresh key is appended at the end. -/
def dictInsert (d : Record) (k : String) (v : Json) : Record :=
  if d.any (fun p => p.1 = k) then
    d.map (fun p => if p.1 = k then (k, v) else p)
  else
    d ++ [(k, v)]

/-- Python `dict(items)`: keys in first-occurrence order, value of each key
is the last one written. -/
def dictOfList (l : Record) : Record :=
  l.foldl (fun d p => dictInsert d p.1 p.2) []

/-- Keys of a record, in order. -/
def recKeys (d : Record) : List String := d.map Prod.fst

/-- Substring test on character lists, used to embed Python's
`needle in haystack` on strings. -/
def charsContain (pat : List Char) : List Char → Bool
  | [] => pat.isEmpty
  | c :: rest => pat.isPrefixOf (c :: rest) || charsContain pat rest

/-- Python `pat in s` for strings: substring containment. -/
def strContains (s pat : String) : Bool :=
  charsContain pat.data s.data

/-- Python `s.lower()`. -/
def strLower (s : String) : String := ⟨s.data.map Char.toLower⟩

/-- Splitting a character list on a separator character. -/
def splitChars (sepc : Char) : List Char → List (List Char)
  | [] => [[]]
  | c :: rest =>
    match splitChars sepc rest with
    | [] => [[]]
    | g :: gs => if c = sepc then [] :: g :: gs else (c :: g) :: gs

/-- Python `s.split(sep)` for a one-character separator (the only kind
strptime's formats need). -/
def strSplit (s : String) (sepc : Char) : List String :=
  (splitChars sepc s.data).map String.mk

/-- A non-empty all-digit character list read as a decimal number. -/
def digitsToNat? (cs : List Char) : Option Nat :=
  if cs ≠ [] ∧ cs.all Char.isDigit then
    some (cs.foldl (fun n c => n * 10 + (c.toNat - 48)) 0)
  else none

/-- Python `s[:n]`. -/
def strTake (s : String) (n : Nat) : String := ⟨s.data.take n⟩

/-- The network response attributes inspected by the classifiers. -/
structure ObservedResponse where
  url : String
  status : Nat
  contentType : String

namespace UmpireScorecardScraper

/-- `handle_response` in `umpire_scorecard_scraper.py` (lines 83-97):
a response is captured when its URL (lower-cased) contains one of the
keywords `api`, `data`, `json`, its status is 200, and its lower-cased
content-type header contains `json`. -/
def handle_response_captures (r : ObservedResponse) : Bool :=
  (strContains (strLower r.url) "api" || strContains (strLower r.url) "data" ||
    strContains (strLower r.url) "json")
  && r.status == 200
  && strContains (strLower r.contentType) "json"

end UmpireScorecardScraper

namespace SimpleUmpireScraper

/-- `handle_response` in `simple_umpire_scraper.py` (lines 73-83):
a response is captured when its lower-cased content-type header contains
`json`; neither the status nor the URL is inspected. -/
def handle_response_captures (r : ObservedResponse) : Bool :=
  strContains (strLower r.contentType) "json"

end SimpleUmpireScraper

/-- The single-quote character that Python `repr` wraps strings in. -/
def pyQuote : String := String.singleton (Char.ofNat 39)

mutual

/-- Python `repr` of a JSON-decoded value (escaping inside strings is not
reproduced; no behaviour under study depends on it). -/
def pyRepr : Json → String
  | Json.null => "None"
  | Json.bool true => "True"
  | Json.bool false => "False"
  | Json.num n => toString n
  | Json.str s => pyQuote ++ s ++ pyQuote
  | Json.arr l => "[" ++ pyReprList l ++ "]"
  | Json.obj fs => "\x7b" ++ pyReprFields fs ++ "\x7d"

/-- Comma-joined `repr`s of the elements of a Python list. -/
def pyReprList : List Json → String
  | [] => ""
  | [v] => pyRepr v
  | v :: rest => pyRepr v ++ ", " ++ pyReprList rest

/-- Comma-joined quoted-key/`repr`-value entries of a Python dict. -/
def pyReprFields : List (String × Json) → String
  | [] => ""
  | [(k, v)] => pyQuote ++ k ++ pyQuote ++ ": " ++ pyRepr v
  | (k, v) :: rest =>
    pyQuote ++ k ++ pyQuote ++ ": " ++ pyRepr v ++ ", " ++ pyReprFields rest

end

/-- Python `str` of a JSON-decoded value: a string yields itself, any
other value yields its `repr`. -/
def pyStr : Json → String
  | Json.str s => s
  | v => pyRepr v

/-- Python truthiness of a JSON-decoded value. -/
def pyTruthy : Json → Bool
  | Json.null => false
  | Json.bool b => b
  | Json.num n => n != 0
  | Json.str s => s != ""
  | Json.arr l => !l.isEmpty
  | Json.obj fs => !fs.isEmpty

/-- Truthiness of an optional string argument (Python default `None`). -/
def optTruthy : Option String → Bool
  | none => false
  | some s => s != ""

/-- Gregorian leap year, as implemented by Python's datetime. -/
def isLeapYear (y : Nat) : Bool :=
  (y % 4 == 0 && y % 100 != 0) || y % 400 == 0

/-- Days in a month, as validated by strptime. -/
def daysInMonth (y m : Nat) : Nat :=
  if m == 2 then (if isLeapYear y then 29 else 28)
  else if m == 4 || m == 6 || m == 9 || m == 11 then 30
  else 31

/-- Dates are embedded as `y*10000 + m*100 + d`, which orders them
exactly as datetime does at date granularity. -/
def encodeDate (y m d : Nat) : Nat := y * 10000 + m * 100 + d

/-- `datetime.min` at date granularity: 0001-01-01. -/
def dateMin : Nat := encodeDate 1 1 1

/-- `datetime.max` at date granularity: 9999-12-31. -/
def dateMax : Nat := encodeDate 9999 12 31

/-- A numeric field of 1 to `maxLen` digits, as matched by strptime's
`%Y`/`%m`/`%d` patterns. -/
def parseNatField (s : String) (maxLen : Nat) : Option Nat :=
  if 1 ≤ s.length ∧ s.length ≤ maxLen then digitsToNat? s.data else none

/-- Range validation performed by datetime's constructor. -/
def mkDate (y m d : Nat) : Option Nat :=
  if 1 ≤ y ∧ y ≤ 9999 ∧ 1 ≤ m ∧ m ≤ 12 ∧ 1 ≤ d ∧ d ≤ daysInMonth y m then
    some (encodeDate y m d)
  else none

/-- `datetime.strptime` with format `%Y-%m-%d`. -/
def parseYMD (s : String) : Option Nat :=
  match strSplit s '-' with
  | [ys, ms, ds] =>
    match parseNatField ys 4, parseNatField ms 2, parseNatField ds 2 with
    | some y, some m, some d => mkDate y m d
    | _, _, _ => none
  | _ => none

/-- `datetime.strptime` with format `%m/%d/%Y`. -/
def parseMDY (s : String) : Option Nat :=
  match strSplit s '/' with
  | [ms, ds, ys] =>
    match parseNatField ys 4, parseNatField ms 2, parseNatField ds 2 with
    | some y, some m, some d => mkDate y m d
    | _, _, _ => none
  | _ => none

/-- `datetime.strptime` with format `%d/%m/%Y`. -/
def parseDMY (s : String) : Option Nat :=
  match strSplit s '/' with
  | [ds, ms, ys] =>
    match parseNatField ys 4, parseNatField ms 2, parseNatField ds 2 with
    | some y, some m, some d => mkDate y m d
    | _, _, _ => none
  | _ => none

/-- The `%H:%M:%S` part of a strptime format. -/
def validHMS (s : String) : Bool :=
  match strSplit s ':' with
  | [hs, ms, ss] =>
    match parseNatField hs 2, parseNatField ms 2, parseNatField ss 2 with
    | some h, some m, some sec => decide (h ≤ 23 ∧ m ≤ 59 ∧ sec ≤ 61)
    | _, _, _ => false
  | _ => false

/-- `datetime.strptime` with format `%Y-%m-%d %H:%M:%S`; the date part is
returned (every comparison under study is at date granularity). -/
def parseYMDHMS (s : String) : Option Nat :=
  match strSplit s ' ' with
  | [dpart, tpart] => if validHMS tpart then parseYMD dpart else none
  | _ => none

/-- The cascading per-item parse of `simple_umpire_scraper.py` (lines
206-213): the value's `str()` truncated to 10 characters is tried against
the formats `%Y-%m-%d`, `%m/%d/%Y`, `%d/%m/%Y`, `%Y-%m-%d %H:%M:%S` in
order, first success winning. -/
def simpleTryFormats (dateStr : String) : Option Nat :=
  let t := strTake dateStr 10
  (parseYMD t).orElse fun _ =>
  (parseMDY t).orElse fun _ =>
  (parseDMY t).orElse fun _ => parseYMDHMS t

/-- Models the external `dateutil.parser.parse`, restricted to the ISO
date and ISO date-time forms this repository feeds it; `none` models the
`ParserError` the library raises on strings it cannot parse.  Time-of-day
is dropped: every comparison under study is at date granularity. -/
def dateutilParse (s : String) : Option Nat :=
  (parseYMD s).orElse fun _ => parseYMDHMS s

/-- The field-resolution loop shared by both `filter_by_date_range`
variants: scan the candidate field names in order; a field that is absent,
or whose value the per-item parse rejects, falls through to the next
candidate; the first success wins. -/
def resolveFirstDate (tryParse : Json → Option Nat) :
    List String → Record → Option Nat
  | [], _ => none
  | f :: rest, item =>
    match item.lookup f with
    | some v =>
      match tryParse v with
      | some d => some d
      | none => resolveFirstDate tryParse rest item
    | none => resolveFirstDate tryParse rest item

namespace UmpireScorecardScraper

/-- The candidate date field names of `filter_by_date_range` (line 193). -/
def date_fields : List String :=
  ["date", "game_date", "Date", "gameDate", "created_at", "timestamp"]

/-- Date resolution for one item (lines 190-201): first candidate field
present whose `str()` the dateutil parser accepts. -/
def resolveItemDate (item : Record) : Option Nat :=
  resolveFirstDate (fun v => dateutilParse (pyStr v)) date_fields item

/-- Bound parsing (lines 187-188):
`date_parser.parse(b) if b else datetime.min/max`; there is no exception
handler, so a parse failure escapes as `Except.error`. -/
def boundDate (b : Option String) (dflt : Nat) : Except String Nat :=
  match b with
  | none => Except.ok dflt
  | some s =>
    if s = "" then Except.ok dflt
    else
      match dateutilParse s with
      | some d => Except.ok d
      | none => Except.error s

/-- `filter_by_date_range` of `umpire_scorecard_scraper.py` (lines
179-207).  A raised bound-parse error is the `Except.error` case. -/
def filter_by_date_range (data : List Record)
    (start_date end_date : Option String) : Except String (List Record) :=
  if !(optTruthy start_date || optTruthy end_date) then Except.ok data
  else
    match boundDate start_date dateMin, boundDate end_date dateMax with
    | Except.ok start_dt, Except.ok end_dt =>
      Except.ok (data.filter fun item =>
        match resolveItemDate item with
        | some d => decide (start_dt ≤ d ∧ d ≤ end_dt)
        | none => false)
    | Except.error e, _ => Except.error e
    | _, Except.error e => Except.error e

end UmpireScorecardScraper

namespace SimpleUmpireScraper

/-- The candidate date field names of `filter_by_date_range` (line 200). -/
def date_fields : List String :=
  ["date", "game_date", "Date", "gameDate", "Game Date"]

/-- Date resolution for one item (lines 198-217): first candidate field
present with a truthy value whose `str()` one of the cascaded formats
accepts. -/
def resolveItemDate (item : Record) : Option Nat :=
  resolveFirstDate
    (fun v => if pyTruthy v then simpleTryFormats (pyStr v) else none)
    date_fields item

/-- Bound parsing (lines 192-193):
`datetime.strptime(b, '%Y-%m-%d') if b else datetime.min/max`; `none`
models the ValueError caught by the surrounding handler. -/
def boundDate (b : Option String) (dflt : Nat) : Option Nat :=
  match b with
  | none => some dflt
  | some s => if s = "" then some dflt else parseYMD s

/-- `filter_by_date_range` of `simple_umpire_scraper.py` (lines 184-223).
A bound-parse failure is caught and the input returned unchanged. -/
def filter_by_date_range (data : List Record)
    (start_date end_date : Option String) : List Record :=
  if !(optTruthy start_date || optTruthy end_date) then data
  else
    match boundDate start_date dateMin, boundDate end_date dateMax with
    | some start_dt, some end_dt =>
      data.filter fun item =>
        match resolveItemDate item with
        | some d => decide (start_dt ≤ d ∧ d ≤ end_dt)
        | none => false
    | _, _ => data

end SimpleUmpireScraper

/-- A value that is neither a mapping nor a sequence (a scalar or null). -/
def isScalar : Json → Bool
  | Json.arr _ => false
  | Json.obj _ => false
  | _ => true

/-- `isinstance(v, dict)`. -/
def isObjJson : Json → Bool
  | Json.obj _ => true
  | _ => false

/-- The mapping parts of a JSON body: the field lists of its mapping
elements when it is a sequence, its own field list when it is a mapping,
nothing otherwise. -/
def mappingParts : Json → List Record
  | Json.arr items =>
    items.filterMap fun it =>
      match it with
      | Json.obj f => some f
      | _ => none
  | Json.obj f => [f]
  | _ => []

/-- A response as captured by the `handle_response` callbacks: its URL,
status, content-type and JSON-decoded body. -/
structure CapturedResponse where
  url : String
  status : Nat
  contentType : String
  body : Json

/-- Successive Python dict assignments of the provenance pairs into a
mapping (`item['umpire_name'] = ...` and its siblings). -/
def addProv (prov : List (String × Json)) (fields : Record) : Record :=
  prov.foldl (fun d p => dictInsert d p.1 p.2) fields

/-- The per-response record-extraction loop shared by
`get_umpire_data_async` (scorecard, lines 140-154) and
`scrape_umpire_page` (simple, lines 114-125): a sequence body yields one
record per mapping element, non-mapping elements silently skipped; a
mapping body yields exactly that mapping; any other body yields nothing.
Each emitted record is the element with the provenance pairs assigned. -/
def extractCore (prov : List (String × Json)) : Json → List Record
  | Json.arr items =>
    items.filterMap fun it =>
      match it with
      | Json.obj f => some (addProv prov f)
      | _ => none
  | Json.obj f => [addProv prov f]
  | _ => []

/-- The captured body after the extraction loop ran: the Python loop
assigns the provenance keys into the element dictionaries (or the body
dictionary) in place, so they are present in the body afterwards;
everything else is untouched. -/
def mutateCore (prov : List (String × Json)) : Json → Json
  | Json.arr items =>
    Json.arr (items.map fun it =>
      match it with
      | Json.obj f => Json.obj (addProv prov f)
      | x => x)
  | Json.obj f => Json.obj (addProv prov f)
  | x => x

namespace UmpireScorecardScraper

/-- The provenance pairs of `get_umpire_data_async`, in assignment order
(lines 146-148 and 151-153); `now` stands for the invocation's
`datetime.now().isoformat()` value. -/
def provenance (umpire_name now url : String) : List (String × Json) :=
  [("umpire_name", Json.str umpire_name), ("scraped_at", Json.str now),
   ("source_url", Json.str url)]

/-- The record-collection part of `get_umpire_data_async` (lines 140-154)
applied to one captured response. -/
def get_umpire_data_records (umpire_name now : String)
    (resp : CapturedResponse) : List Record :=
  extractCore (provenance umpire_name now resp.url) resp.body

/-- The captured body of that response after the collection loop ran. -/
def get_umpire_data_body_after (umpire_name now : String)
    (resp : CapturedResponse) : Json :=
  mutateCore (provenance umpire_name now resp.url) resp.body

end UmpireScorecardScraper

namespace SimpleUmpireScraper

/-- The provenance pairs of `scrape_umpire_page`, in assignment order
(lines 119-120 and 123-124). -/
def provenance (umpire_name now : String) : List (String × Json) :=
  [("umpire_name", Json.str umpire_name),
   ("scraped_timestamp", Json.str now)]

/-- The JSON-processing part of `scrape_umpire_page` (lines 114-125)
applied to one captured response. -/
def scrape_umpire_page_records (umpire_name now : String)
    (resp : CapturedResponse) : List Record :=
  extractCore (provenance umpire_name now) resp.body

/-- The captured body of that response after the processing loop ran. -/
def scrape_umpire_page_body_after (umpire_name now : String)
    (resp : CapturedResponse) : Json :=
  mutateCore (provenance umpire_name now) resp.body

end SimpleUmpireScraper

namespace UmpireScorecardScraper

mutual

/-- The item-accumulation loop of `flatten_dict` (lines 243-257) over the
entries of a mapping.  `none` models the `AttributeError` raised when a
non-mapping gets recursed on as a mapping (see `flattenArrElems`). -/
def flattenItems : List (String × Json) → String → String →
    Option (List (String × Json))
  | [], _, _ => some []
  | (k, v) :: rest, parent_key, sep =>
    let new_key := if parent_key ≠ "" then parent_key ++ sep ++ k else k
    match flattenVal new_key sep v with
    | none => none
    | some head =>
      match flattenItems rest parent_key sep with
      | none => none
      | some tail => some (head ++ tail)

/-- The per-value branch of the loop body (lines 246-256): a mapping
recurses (the recursive `flatten_dict` call returns a dict, whose items
are taken); a list recurses element-wise when non-empty with a mapping
first element, and is otherwise stored as its `str()`; anything else is
stored as-is. -/
def flattenVal : String → String → Json → Option (List (String × Json))
  | new_key, sep, Json.obj fields =>
    match flattenItems fields new_key sep with
    | none => none
    | some items => some (dictOfList items)
  | new_key, _, Json.arr [] =>
    some [(new_key, Json.str (pyStr (Json.arr [])))]
  | new_key, sep, Json.arr (h :: t) =>
    match h with
    | Json.obj _ => flattenArrElems (h :: t) new_key sep 0
    | _ => some [(new_key, Json.str (pyStr (Json.arr (h :: t))))]
  | new_key, _, v => some [(new_key, v)]

/-- The `enumerate(v)` loop (lines 251-252): every element is recursed on
via `flatten_dict(item, f"{new_key}_{i}")` — note the literal `_` joining
the index, independent of `sep` — so a non-mapping element raises
(`none`). -/
def flattenArrElems : List Json → String → String → Nat →
    Option (List (String × Json))
  | [], _, _, _ => some []
  | Json.obj f :: rest, base, sep, i =>
    match flattenItems f (base ++ "_" ++ toString i) sep with
    | none => none
    | some items =>
      match flattenArrElems rest base sep (i + 1) with
      | none => none
      | some tail => some (dictOfList items ++ tail)
  | _ :: _, _, _, _ => none

end

/-- `flatten_dict` of `umpire_scorecard_scraper.py` (lines 239-257): the
accumulated items pass through `dict(items)` before being returned. -/
def flatten_dict (d : List (String × Json)) (parent_key : String := "")
    (sep : String := "_") : Option (List (String × Json)) :=
  match flattenItems d parent_key sep with
  | none => none
  | some items => some (dictOfList items)

end UmpireScorecardScraper

/-!
Helper lemmas about the embedded Python-dict operations.
-/

theorem dictInsert_of_not_mem (d : Record) (k : String) (v : Json)
    (h : d.any (fun p => p.1 = k) = false) :
    dictInsert d k v = d ++ [(k, v)] := by
  simp only [dictInsert, h]
  simp

theorem mem_dictInsert (d : Record) (k : String) (v : Json) (p : String × Json)
    (h : p ∈ dictInsert d k v) : p ∈ d ∨ p = (k, v) := by
  rw [dictInsert] at h
  split at h
  · rcases List.mem_map.mp h with ⟨q, hq, heq⟩
    split at heq
    · exact Or.inr heq.symm
    · exact Or.inl (heq ▸ hq)
  · rcases List.mem_append.mp h with h1 | h1
    · exact Or.inl h1
    · exact Or.inr (by simpa using h1)

theorem mem_foldl_dictInsert (l : Record) :
    ∀ (acc : Record) (p : String × Json),
      p ∈ l.foldl (fun d q => dictInsert d q.1 q.2) acc → p ∈ acc ∨ p ∈ l := by
  induction l with
  | nil => intro acc p h; exact Or.inl (by simpa using h)
  | cons q rest ih =>
    intro acc p h
    rw [List.foldl_cons] at h
    rcases ih (dictInsert acc q.1 q.2) p h with h1 | h1
    · rcases mem_dictInsert _ _ _ _ h1 with h2 | h2
      · exact Or.inl h2
      · exact Or.inr (h2 ▸ List.mem_cons_self _ _)
    · exact Or.inr (List.mem_cons_of_mem _ h1)

theorem mem_dictOfList (l : Record) (p : String × Json)
    (h : p ∈ dictOfList l) : p ∈ l := by
  rcases mem_foldl_dictInsert l [] p h with h1 | h1
  · simp at h1
  · exact h1

theorem foldl_dictInsert_of_nodup (l : Record) :
    ∀ acc : Record, (recKeys (acc ++ l)).Nodup →
      l.foldl (fun d q => dictInsert d q.1 q.2) acc = acc ++ l := by
  induction l with
  | nil => intro acc _; simp
  | cons q rest ih =>
    intro acc h
    have hq : q.1 ∉ acc.map Prod.fst := by
      have hd := (List.nodup_append.mp (by simpa [recKeys] using h)).2.2
      exact fun hmem => hd hmem (by simp)
    have hk : acc.any (fun p => p.1 = q.1) = false := by
      rw [List.any_eq_false]
      intro p hp
      simp only [decide_eq_true_eq]
      intro hpe
      exact hq (hpe ▸ List.mem_map_of_mem Prod.fst hp)
    rw [List.foldl_cons, dictInsert_of_not_mem _ _ _ hk]
    have h2 : (recKeys ((acc ++ [(q.1, q.2)]) ++ rest)).Nodup := by
      simpa [recKeys] using h
    rw [ih (acc ++ [(q.1, q.2)]) h2]
    simp

theorem dictOfList_of_nodup (l : Record) (h : (recKeys l).Nodup) :
    dictOfList l = l := by
  have := foldl_dictInsert_of_nodup l [] (by simpa using h)
  simpa [dictOfList] using this

theorem nodup_recKeys_dictInsert (d : Record) (k : String) (v : Json)
    (h : (recKeys d).Nodup) : (recKeys (dictInsert d k v)).Nodup := by
  rw [dictInsert]
  split
  · have hkeys : recKeys (d.map fun p => if p.1 = k then (k, v) else p)
        = recKeys d := by
      simp only [recKeys, List.map_map]
      apply List.map_congr_left
      intro p _
      by_cases hpk : p.1 = k
      · simp [hpk]
      · simp [hpk]
    rw [hkeys]; exact h
  · rename_i hno
    have hk : k ∉ recKeys d := by
      intro hmem
      apply hno
      rcases List.mem_map.mp hmem with ⟨p, hp, hpe⟩
      exact List.any_eq_true.mpr ⟨p, hp, by simpa using hpe⟩
    have hkeys : recKeys (d ++ [(k, v)]) = recKeys d ++ [k] := by
      simp [recKeys]
    rw [hkeys, List.nodup_append]
    refine ⟨h, List.nodup_singleton _, ?_⟩
    intro a ha hb
    rw [List.mem_singleton] at hb
    subst hb
    exact hk ha

theorem nodup_recKeys_foldl_dictInsert (l : Record) :
    ∀ acc : Record, (recKeys acc).Nodup →
      (recKeys (l.foldl (fun d q => dictInsert d q.1 q.2) acc)).Nodup := by
  induction l with
  | nil => intro acc h; simpa using h
  | cons q rest ih =>
    intro acc h
    rw [List.foldl_cons]
    exact ih _ (nodup_recKeys_dictInsert _ _ _ h)

theorem nodup_recKeys_dictOfList (l : Record) :
    (recKeys (dictOfList l)).Nodup :=
  nodup_recKeys_foldl_dictInsert l [] (by simp [recKeys])

theorem dictOfList_idem (l : Record) :
    dictOfList (dictOfList l) = dictOfList l :=
  dictOfList_of_nodup _ (nodup_recKeys_dictOfList l)

/-!
Claim C1 — classifier capture policy.
-/

/-- C1 counterexample: the simple scraper's `handle_response` captures a
response with HTTP status 404 whose content-type is JSON and whose URL
contains `/api/`, refuting the claim that every observed response is
captured only if its status indicates success. -/
theorem C1_counterexample :
    SimpleUmpireScraper.handle_response_captures
      ⟨"https://x.com/api/data", 404, "application/json"⟩ = true := by
  decide

/-- C1 (amended): the scorecard variant's classifier captures a response
only if its status is 200 and its content-type contains `json` — in
particular it rejects a 404 status and a `text/html` content-type even
when the URL contains `/api/` — while the simple variant inspects only
the content-type: it rejects `text/html` but 404 JSON responses pass. -/
theorem C1_classifier_policy :
    (∀ r : ObservedResponse,
        UmpireScorecardScraper.handle_response_captures r = true →
          r.status = 200 ∧ strContains (strLower r.contentType) "json" = true)
  ∧ (∀ r : ObservedResponse,
        SimpleUmpireScraper.handle_response_captures r = true →
          strContains (strLower r.contentType) "json" = true)
  ∧ UmpireScorecardScraper.handle_response_captures
      ⟨"https://x.com/api/games", 404, "application/json"⟩ = false
  ∧ UmpireScorecardScraper.handle_response_captures
      ⟨"https://x.com/api/games", 200, "text/html"⟩ = false
  ∧ SimpleUmpireScraper.handle_response_captures
      ⟨"https://x.com/api/games", 200, "text/html"⟩ = false := by
  refine ⟨?_, ?_, by decide, by decide, by decide⟩
  · intro r h
    simp only [UmpireScorecardScraper.handle_response_captures,
      Bool.and_eq_true, beq_iff_eq] at h
    exact ⟨h.1.2, h.2⟩
  · intro r h
    exact h

/-- Witness for C1: a 200-status JSON response the scorecard classifier
does capture, instantiating the amended policy. -/
theorem C1_classifier_policy_witness :
    UmpireScorecardScraper.handle_response_captures
      ⟨"https://x.com/api/games", 200, "application/json"⟩ = true
  ∧ ((⟨"https://x.com/api/games", 200, "application/json"⟩ :
        ObservedResponse).status = 200
      ∧ strContains (strLower (⟨"https://x.com/api/games", 200,
          "application/json"⟩ : ObservedResponse).contentType) "json" = true) :=
  ⟨by decide, C1_classifier_policy.1 _ (by decide)⟩

/-!
Claim C3 — behaviour when a filter bound fails to parse.
-/

/-- C3 counterexample: the scorecard variant's `filter_by_date_range` has
no handler around its bound parsing, so an unparseable start bound
propagates as a raised error instead of "input returned unchanged". -/
theorem C3_counterexample :
    UmpireScorecardScraper.filter_by_date_range
      [[("date", Json.str "2024-06-15")]] (some "not-a-date") none
      = Except.error "not-a-date" := by
  have h1 : dateutilParse "not-a-date" = none := by decide
  simp [UmpireScorecardScraper.filter_by_date_range,
    UmpireScorecardScraper.boundDate, optTruthy, h1]

/-- C3 (amended): when a supplied bound fails to parse, the simple
variant catches the error and returns the input sequence unchanged, but
the scorecard variant propagates (raises) the parse error. -/
theorem C3_bad_bound_behaviour :
    (∀ (data : List Record) (e : Option String) (s : String),
        s ≠ "" → parseYMD s = none →
          SimpleUmpireScraper.filter_by_date_range data (some s) e = data)
  ∧ (∀ (data : List Record) (s : Option String) (e : String),
        e ≠ "" → parseYMD e = none →
          SimpleUmpireScraper.filter_by_date_range data s (some e) = data)
  ∧ (∀ (data : List Record) (e : Option String) (s : String),
        s ≠ "" → dateutilParse s = none →
          UmpireScorecardScraper.filter_by_date_range data (some s) e
            = Except.error s)
  ∧ (∀ (data : List Record) (s : Option String) (e : String) (sd : Nat),
        e ≠ "" → dateutilParse e = none →
          UmpireScorecardScraper.boundDate s dateMin = Except.ok sd →
          UmpireScorecardScraper.filter_by_date_range data s (some e)
            = Except.error e) := by
  refine ⟨?_, ?_, ?_, ?_⟩
  · intro data e s hs hp
    simp [SimpleUmpireScraper.filter_by_date_range,
      SimpleUmpireScraper.boundDate, optTruthy, hs, hp]
  · intro data s e he hp
    cases hb : SimpleUmpireScraper.boundDate s dateMin <;>
      simp [SimpleUmpireScraper.filter_by_date_range,
        SimpleUmpireScraper.boundDate, optTruthy, he, hp, hb]
  · intro data e s hs hp
    simp [UmpireScorecardScraper.filter_by_date_range,
      UmpireScorecardScraper.boundDate, optTruthy, hs, hp]
  · intro data s e sd he hp hb
    simp only [UmpireScorecardScraper.filter_by_date_range, optTruthy]
    rw [hb]
    simp [UmpireScorecardScraper.boundDate, he, hp]

/-- Witness for C3: the amended behaviour at the concrete unparseable
bound `not-a-date` over a one-record sequence. -/
theorem C3_bad_bound_behaviour_witness :
    ("not-a-date" ≠ "" ∧ parseYMD "not-a-date" = none)
  ∧ SimpleUmpireScraper.filter_by_date_range
      [[("date", Json.str "2024-06-15")]] (some "not-a-date") none
      = [[("date", Json.str "2024-06-15")]] :=
  ⟨⟨by decide, by decide⟩,
    C3_bad_bound_behaviour.1 _ _ _ (by decide) (by decide)⟩

/-!
Claim C7 — the date filter is the identity when no bounds are given.
-/

/-- C7: calling either `filter_by_date_range` variant with neither a
start bound nor an end bound returns exactly the input sequence: same
records, same order, same count. -/
theorem C7_filter_identity_without_bounds :
    (∀ data : List Record,
        SimpleUmpireScraper.filter_by_date_range data none none = data)
  ∧ (∀ data : List Record,
        UmpireScorecardScraper.filter_by_date_range data none none
          = Except.ok data) :=
  ⟨fun _ => rfl, fun _ => rfl⟩

/-!
Claim C10 — a sequence is dispatched on its first element only.
-/

/-- C10: `flatten_dict` decides how to handle a sequence solely by its
first element: a sequence whose first element is a mapping but whose
later element is not makes the flattener recurse on the non-mapping and
raise (`none` embeds the `AttributeError`), neither skipping the element
nor coercing the sequence to a string; conversely a sequence starting
with a non-mapping is coerced to its string representation even though a
later element is a mapping. -/
theorem C10_mixed_sequence_raises :
    UmpireScorecardScraper.flatten_dict
      [("a", Json.arr [Json.obj [("x", Json.num 1)], Json.num 5])] = none
  ∧ UmpireScorecardScraper.flatten_dict
      [("a", Json.arr [Json.num 5, Json.obj [("x", Json.num 1)]])]
      = some [("a", Json.str
          (pyStr (Json.arr [Json.num 5, Json.obj [("x", Json.num 1)]])))] :=
  ⟨rfl, rfl⟩

/-!
Claims C2 and C5 — the record extractor.
-/

theorem extractCore_eq_mappingParts_mutateCore
    (prov : List (String × Json)) (body : Json) :
    extractCore prov body = mappingParts (mutateCore prov body) := by
  cases body with
  | arr items =>
    simp only [extractCore, mutateCore, mappingParts, List.filterMap_map]
    apply List.filterMap_congr
    intro x _
    cases x <;> rfl
  | null => rfl
  | bool b => rfl
  | num n => rfl
  | str s => rfl
  | obj f => rfl

/-- C2 counterexample: extracting from a captured response whose body is
the mapping `{"id": 1}` leaves the body changed — the provenance keys
have been assigned into it in place — refuting "the captured body is the
same value after extraction as before". -/
theorem C2_counterexample :
    UmpireScorecardScraper.get_umpire_data_body_after "Adam Beck" "T0"
      ⟨"https://u", 200, "application/json", Json.obj [("id", Json.num 1)]⟩
    ≠ (⟨"https://u", 200, "application/json",
        Json.obj [("id", Json.num 1)]⟩ : CapturedResponse).body := by
  intro h
  have h2 : Json.obj [("id", Json.num 1),
      ("umpire_name", Json.str "Adam Beck"), ("scraped_at", Json.str "T0"),
      ("source_url", Json.str "https://u")]
      = Json.obj [("id", Json.num 1)] := h
  injection h2 with h3
  simp at h3

/-- C2 (amended): record extraction returns its sequence of Records but
mutates the CapturedResponse: the provenance pairs are assigned in place
into the mapping body, or into each mapping element of a sequence body,
and the returned Records are exactly the mapping parts of the mutated
body; scalar and null bodies (and non-mapping sequence elements) are left
unchanged. -/
theorem C2_extraction_mutates_body :
    (∀ (umpire_name now : String) (resp : CapturedResponse),
        UmpireScorecardScraper.get_umpire_data_records umpire_name now resp
          = mappingParts (UmpireScorecardScraper.get_umpire_data_body_after
              umpire_name now resp))
  ∧ (∀ (umpire_name now : String) (resp : CapturedResponse),
        SimpleUmpireScraper.scrape_umpire_page_records umpire_name now resp
          = mappingParts (SimpleUmpireScraper.scrape_umpire_page_body_after
              umpire_name now resp))
  ∧ (∀ prov, mutateCore prov Json.null = Json.null)
  ∧ (∀ prov b, mutateCore prov (Json.bool b) = Json.bool b)
  ∧ (∀ prov n, mutateCore prov (Json.num n) = Json.num n)
  ∧ (∀ prov s, mutateCore prov (Json.str s) = Json.str s) := by
  refine ⟨?_, ?_, fun _ => rfl, fun _ _ => rfl, fun _ _ => rfl, fun _ _ => rfl⟩
  · intro umpire_name now resp
    exact extractCore_eq_mappingParts_mutateCore _ _
  · intro umpire_name now resp
    exact extractCore_eq_mappingParts_mutateCore _ _

theorem extractCore_arr_length (prov : List (String × Json))
    (items : List Json) :
    (extractCore prov (Json.arr items)).length = items.countP isObjJson := by
  induction items with
  | nil => rfl
  | cons h t ih =>
    simp only [extractCore] at ih ⊢
    cases h <;>
      simp [List.filterMap_cons, List.countP_cons, isObjJson, ih]

/-- C5: the Record Extractor emits one Record per mapping element of a
sequence body (non-mapping elements silently skipped), exactly one Record
for a mapping body, and zero Records for a scalar, null or empty-sequence
body; on the concrete body `[{"id":1},{"id":2},"not-a-map"]` both scraper
variants produce exactly 2 Records carrying identical provenance
fields. -/
theorem C5_extractor_records :
    (∀ (prov : List (String × Json)) (items : List Json),
        (extractCore prov (Json.arr items)).length = items.countP isObjJson)
  ∧ (∀ (prov : List (String × Json)) (f : Record),
        extractCore prov (Json.obj f) = [addProv prov f])
  ∧ (∀ prov, extractCore prov Json.null = [])
  ∧ (∀ prov b, extractCore prov (Json.bool b) = [])
  ∧ (∀ prov n, extractCore prov (Json.num n) = [])
  ∧ (∀ prov s, extractCore prov (Json.str s) = [])
  ∧ (∀ prov, extractCore prov (Json.arr []) = [])
  ∧ ((UmpireScorecardScraper.get_umpire_data_records "Adam Beck" "T0"
        ⟨"https://u", 200, "application/json",
          Json.arr [Json.obj [("id", Json.num 1)],
            Json.obj [("id", Json.num 2)], Json.str "not-a-map"]⟩).map
        (fun r => (r.lookup "umpire_name", r.lookup "scraped_at",
          r.lookup "source_url"))
      = [(some (Json.str "Adam Beck"), some (Json.str "T0"),
          some (Json.str "https://u")),
         (some (Json.str "Adam Beck"), some (Json.str "T0"),
          some (Json.str "https://u"))])
  ∧ ((SimpleUmpireScraper.scrape_umpire_page_records "Adam Beck" "T0"
        ⟨"https://u", 200, "application/json",
          Json.arr [Json.obj [("id", Json.num 1)],
            Json.obj [("id", Json.num 2)], Json.str "not-a-map"]⟩).map
        (fun r => (r.lookup "umpire_name", r.lookup "scraped_timestamp"))
      = [(some (Json.str "Adam Beck"), some (Json.str "T0")),
         (some (Json.str "Adam Beck"), some (Json.str "T0"))]) := by
  refine ⟨extractCore_arr_length, fun _ _ => rfl, fun _ => rfl,
    fun _ _ => rfl, fun _ _ => rfl, fun _ _ => rfl, fun _ => rfl, ?_, ?_⟩
  · rfl
  · rfl

/-!
Claim C6 — range semantics of an active date filter.
-/

theorem simple_filter_active_eq (data : List Record)
    (s e : Option String) (sd ed : Nat)
    (hact : (optTruthy s || optTruthy e) = true)
    (hs : SimpleUmpireScraper.boundDate s dateMin = some sd)
    (he : SimpleUmpireScraper.boundDate e dateMax = some ed) :
    SimpleUmpireScraper.filter_by_date_range data s e
      = data.filter (fun item =>
          match SimpleUmpireScraper.resolveItemDate item with
          | some d => decide (sd ≤ d ∧ d ≤ ed)
          | none => false) := by
  simp only [SimpleUmpireScraper.filter_by_date_range, hact]
  rw [hs, he]
  rfl

theorem scorecard_filter_active_eq (data : List Record)
    (s e : Option String) (sd ed : Nat)
    (hact : (optTruthy s || optTruthy e) = true)
    (hs : UmpireScorecardScraper.boundDate s dateMin = Except.ok sd)
    (he : UmpireScorecardScraper.boundDate e dateMax = Except.ok ed) :
    UmpireScorecardScraper.filter_by_date_range data s e
      = Except.ok (data.filter (fun item =>
          match UmpireScorecardScraper.resolveItemDate item with
          | some d => decide (sd ≤ d ∧ d ≤ ed)
          | none => false)) := by
  simp only [UmpireScorecardScraper.filter_by_date_range, hact]
  rw [hs, he]
  rfl

/-- C6: under an active date filter whose bounds resolve to `sd` and
`ed`, a record is kept iff the first candidate date field that parses
yields a date `d` with `sd ≤ d ≤ ed` (inclusive on both ends); a record
with no parseable date field is excluded.  Concretely, with bounds
2024-01-01 and 2024-12-31 a record dated 2023-12-31 is excluded and one
dated 2024-06-15 is included, in both scraper variants. -/
theorem C6_date_filter_characterisation :
    (∀ (data : List Record) (s e : Option String) (sd ed : Nat),
        (optTruthy s || optTruthy e) = true →
        SimpleUmpireScraper.boundDate s dateMin = some sd →
        SimpleUmpireScraper.boundDate e dateMax = some ed →
        ∀ item : Record,
          (item ∈ SimpleUmpireScraper.filter_by_date_range data s e
            ↔ item ∈ data ∧ ∃ d,
                SimpleUmpireScraper.resolveItemDate item = some d
                  ∧ sd ≤ d ∧ d ≤ ed))
  ∧ (∀ (data : List Record) (s e : Option String) (sd ed : Nat),
        (optTruthy s || optTruthy e) = true →
        UmpireScorecardScraper.boundDate s dateMin = Except.ok sd →
        UmpireScorecardScraper.boundDate e dateMax = Except.ok ed →
        ∃ out, UmpireScorecardScraper.filter_by_date_range data s e
            = Except.ok out
          ∧ ∀ item : Record,
              (item ∈ out ↔ item ∈ data ∧ ∃ d,
                UmpireScorecardScraper.resolveItemDate item = some d
                  ∧ sd ≤ d ∧ d ≤ ed))
  ∧ SimpleUmpireScraper.filter_by_date_range
      [[("date", Json.str "2023-12-31")], [("date", Json.str "2024-06-15")]]
      (some "2024-01-01") (some "2024-12-31")
      = [[("date", Json.str "2024-06-15")]]
  ∧ UmpireScorecardScraper.filter_by_date_range
      [[("date", Json.str "2023-12-31")], [("date", Json.str "2024-06-15")]]
      (some "2024-01-01") (some "2024-12-31")
      = Except.ok [[("date", Json.str "2024-06-15")]] := by
  refine ⟨?_, ?_, by rfl, ?_⟩
  · intro data s e sd ed hact hs he item
    rw [simple_filter_active_eq data s e sd ed hact hs he, List.mem_filter]
    refine and_congr_right (fun _ => ?_)
    cases hr : SimpleUmpireScraper.resolveItemDate item <;> simp [hr]
  · intro data s e sd ed hact hs he
    refine ⟨_, scorecard_filter_active_eq data s e sd ed hact hs he, ?_⟩
    intro item
    rw [List.mem_filter]
    refine and_congr_right (fun _ => ?_)
    cases hr : UmpireScorecardScraper.resolveItemDate item <;> simp [hr]
  · have h1 : dateutilParse "2024-01-01" = some 20240101 := by decide
    have h2 : dateutilParse "2024-12-31" = some 20241231 := by decide
    rw [scorecard_filter_active_eq _ _ _ 20240101 20241231 (by decide)
      (by simp [UmpireScorecardScraper.boundDate, h1])
      (by simp [UmpireScorecardScraper.boundDate, h2])]
    rfl

/-- Witness for C6: the characterisation applied to a concrete two-record
sequence with concrete bounds, showing the 2024-06-15 record kept. -/
theorem C6_date_filter_characterisation_witness :
    ((optTruthy (some "2024-01-01") || optTruthy (some "2024-12-31")) = true
      ∧ SimpleUmpireScraper.boundDate (some "2024-01-01") dateMin
          = some 20240101
      ∧ SimpleUmpireScraper.boundDate (some "2024-12-31") dateMax
          = some 20241231)
  ∧ ([("date", Json.str "2024-06-15")] ∈
        SimpleUmpireScraper.filter_by_date_range
          [[("date", Json.str "2023-12-31")],
           [("date", Json.str "2024-06-15")]]
          (some "2024-01-01") (some "2024-12-31")
      ↔ [("date", Json.str "2024-06-15")] ∈
          [[("date", Json.str "2023-12-31")],
           [("date", Json.str "2024-06-15")]]
        ∧ ∃ d, SimpleUmpireScraper.resolveItemDate
            [("date", Json.str "2024-06-15")] = some d
            ∧ 20240101 ≤ d ∧ d ≤ 20241231) :=
  ⟨⟨by decide, by decide, by decide⟩,
    C6_date_filter_characterisation.1 _ _ _ _ _ (by decide) (by decide)
      (by decide) _⟩

/-!
Claims C4, C8, C9 — the flattener.
-/

theorem flattenVal_scalar (k sep : String) (v : Json)
    (hv : isScalar v = true) :
    UmpireScorecardScraper.flattenVal k sep v = some [(k, v)] := by
  cases v <;> simp_all [UmpireScorecardScraper.flattenVal, isScalar]

theorem flattenItems_flat (d : Record) (sep : String)
    (h : ∀ p ∈ d, isScalar p.2 = true) :
    UmpireScorecardScraper.flattenItems d "" sep = some d := by
  induction d with
  | nil => simp [UmpireScorecardScraper.flattenItems]
  | cons p rest ih =>
    obtain ⟨k, v⟩ := p
    have hv : isScalar v = true := h (k, v) (List.mem_cons_self _ _)
    have hrest := ih (fun q hq => h q (List.mem_cons_of_mem _ hq))
    simp [UmpireScorecardScraper.flattenItems, flattenVal_scalar, hv, hrest]

/-- C8: flattening is idempotent on already-flat input: a mapping whose
values are all scalars or null flattens to the same mapping, key-for-key
and value-for-value. -/
theorem C8_flatten_idempotent_on_flat (d : Record) (sep : String)
    (hflat : ∀ p ∈ d, isScalar p.2 = true)
    (hkeys : (recKeys d).Nodup) :
    UmpireScorecardScraper.flatten_dict d "" sep = some d := by
  simp [UmpireScorecardScraper.flatten_dict, flattenItems_flat d sep hflat,
    dictOfList_of_nodup d hkeys]

/-- Witness for C8: a concrete flat two-key record flattens to itself. -/
theorem C8_flatten_idempotent_on_flat_witness :
    UmpireScorecardScraper.flatten_dict
      [("a", Json.num 1), ("b", Json.str "x")] "" "_"
      = some [("a", Json.num 1), ("b", Json.str "x")] :=
  C8_flatten_idempotent_on_flat _ _ (by decide) (by decide)

theorem flatten_parts_scalar : ∀ n : Nat,
    (∀ (d : Record) (pk sep : String) (r : Record), sizeOf d ≤ n →
        UmpireScorecardScraper.flattenItems d pk sep = some r →
        ∀ p ∈ r, isScalar p.2 = true)
  ∧ (∀ (k sep : String) (v : Json) (r : Record), sizeOf v ≤ n →
        UmpireScorecardScraper.flattenVal k sep v = some r →
        ∀ p ∈ r, isScalar p.2 = true)
  ∧ (∀ (l : List Json) (b sep : String) (i : Nat) (r : Record),
        sizeOf l ≤ n →
        UmpireScorecardScraper.flattenArrElems l b sep i = some r →
        ∀ p ∈ r, isScalar p.2 = true) := by
  intro n
  induction n using Nat.strong_induction_on with
  | _ n ih =>
    refine ⟨?_, ?_, ?_⟩
    · intro d pk sep r hsz hfl p hp
      cases d with
      | nil =>
        simp only [UmpireScorecardScraper.flattenItems,
          Option.some.injEq] at hfl
        subst hfl
        exact absurd hp (List.not_mem_nil p)
      | cons hd rest =>
        obtain ⟨k, v⟩ := hd
        simp only [UmpireScorecardScraper.flattenItems] at hfl
        cases hv : UmpireScorecardScraper.flattenVal
            (if pk ≠ "" then pk ++ sep ++ k else k) sep v with
        | none => rw [hv] at hfl; simp at hfl
        | some head =>
          rw [hv] at hfl
          cases ht : UmpireScorecardScraper.flattenItems rest pk sep with
          | none => rw [ht] at hfl; simp at hfl
          | some tail =>
            rw [ht] at hfl
            simp only [Option.some.injEq] at hfl
            subst hfl
            rcases List.mem_append.mp hp with hp1 | hp2
            · have hlt : sizeOf v < n := by
                have hstep : sizeOf v < sizeOf ((k, v) :: rest) := by
                  simp only [List.cons.sizeOf_spec, Prod.mk.sizeOf_spec]
                  omega
                omega
              exact (ih (sizeOf v) hlt).2.1 _ sep v head le_rfl hv p hp1
            · have hlt : sizeOf rest < n := by
                have hstep : sizeOf rest < sizeOf ((k, v) :: rest) := by
                  simp only [List.cons.sizeOf_spec, Prod.mk.sizeOf_spec]
                  omega
                omega
              exact (ih (sizeOf rest) hlt).1 rest pk sep tail le_rfl ht p hp2
    · intro k sep v r hsz hfl p hp
      cases v with
      | null =>
        simp only [UmpireScorecardScraper.flattenVal,
          Option.some.injEq] at hfl
        subst hfl
        rw [List.mem_singleton] at hp
        subst hp
        rfl
      | bool b =>
        simp only [UmpireScorecardScraper.flattenVal,
          Option.some.injEq] at hfl
        subst hfl
        rw [List.mem_singleton] at hp
        subst hp
        rfl
      | num m =>
        simp only [UmpireScorecardScraper.flattenVal,
          Option.some.injEq] at hfl
        subst hfl
        rw [List.mem_singleton] at hp
        subst hp
        rfl
      | str s =>
        simp only [UmpireScorecardScraper.flattenVal,
          Option.some.injEq] at hfl
        subst hfl
        rw [List.mem_singleton] at hp
        subst hp
        rfl
      | obj fields =>
        simp only [UmpireScorecardScraper.flattenVal] at hfl
        cases hin : UmpireScorecardScraper.flattenItems fields k sep with
        | none => rw [hin] at hfl; simp at hfl
        | some items =>
          rw [hin] at hfl
          simp only [Option.some.injEq] at hfl
          subst hfl
          have hmem := mem_dictOfList items p hp
          have hlt : sizeOf fields < n := by
            have hstep : sizeOf fields < sizeOf (Json.obj fields) := by
              simp only [Json.obj.sizeOf_spec]
              omega
            omega
          exact (ih (sizeOf fields) hlt).1 fields k sep items le_rfl hin p hmem
      | arr l =>
        cases l with
        | nil =>
          simp only [UmpireScorecardScraper.flattenVal,
            Option.some.injEq] at hfl
          subst hfl
          rw [List.mem_singleton] at hp
          subst hp
          rfl
        | cons hdj t =>
          cases hdj with
          | obj f =>
            simp only [UmpireScorecardScraper.flattenVal] at hfl
            have hlt : sizeOf (Json.obj f :: t) < n := by
              have hstep : sizeOf (Json.obj f :: t)
                  < sizeOf (Json.arr (Json.obj f :: t)) := by
                simp only [Json.arr.sizeOf_spec]
                omega
              omega
            exact (ih (sizeOf (Json.obj f :: t)) hlt).2.2 _ k sep 0 r le_rfl
              hfl p hp
          | null =>
            simp only [UmpireScorecardScraper.flattenVal,
              Option.some.injEq] at hfl
            subst hfl
            rw [List.mem_singleton] at hp
            subst hp
            rfl
          | bool b =>
            simp only [UmpireScorecardScraper.flattenVal,
              Option.some.injEq] at hfl
            subst hfl
            rw [List.mem_singleton] at hp
            subst hp
            rfl
          | num m =>
            simp only [UmpireScorecardScraper.flattenVal,
              Option.some.injEq] at hfl
            subst hfl
            rw [List.mem_singleton] at hp
            subst hp
            rfl
          | str s =>
            simp only [UmpireScorecardScraper.flattenVal,
              Option.some.injEq] at hfl
            subst hfl
            rw [List.mem_singleton] at hp
            subst hp
            rfl
          | arr l2 =>
            simp only [UmpireScorecardScraper.flattenVal,
              Option.some.injEq] at hfl
            subst hfl
            rw [List.mem_singleton] at hp
            subst hp
            rfl
    · intro l b sep i r hsz hfl p hp
      cases l with
      | nil =>
        simp only [UmpireScorecardScraper.flattenArrElems,
          Option.some.injEq] at hfl
        subst hfl
        exact absurd hp (List.not_mem_nil p)
      | cons hdj t =>
        cases hdj with
        | obj f =>
          simp only [UmpireScorecardScraper.flattenArrElems] at hfl
          cases hin : UmpireScorecardScraper.flattenItems f
              (b ++ "_" ++ toString i) sep with
          | none => rw [hin] at hfl; simp at hfl
          | some items =>
            rw [hin] at hfl
            cases ht : UmpireScorecardScraper.flattenArrElems t b sep
                (i + 1) with
            | none => rw [ht] at hfl; simp at hfl
            | some tail =>
              rw [ht] at hfl
              simp only [Option.some.injEq] at hfl
              subst hfl
              rcases List.mem_append.mp hp with hp1 | hp2
              · have hmem := mem_dictOfList items p hp1
                have hlt : sizeOf f < n := by
                  have hstep : sizeOf f < sizeOf (Json.obj f :: t) := by
                    simp only [List.cons.sizeOf_spec, Json.obj.sizeOf_spec]
                    omega
                  omega
                exact (ih (sizeOf f) hlt).1 f (b ++ "_" ++ toString i) sep
                  items le_rfl hin p hmem
              · have hlt : sizeOf t < n := by
                  have hstep : sizeOf t < sizeOf (Json.obj f :: t) := by
                    simp only [List.cons.sizeOf_spec, Json.obj.sizeOf_spec]
                    omega
                  omega
                exact (ih (sizeOf t) hlt).2.2 t b sep (i + 1) tail le_rfl
                  ht p hp2
        | null => simp [UmpireScorecardScraper.flattenArrElems] at hfl
        | bool b2 => simp [UmpireScorecardScraper.flattenArrElems] at hfl
        | num m => simp [UmpireScorecardScraper.flattenArrElems] at hfl
        | str s => simp [UmpireScorecardScraper.flattenArrElems] at hfl
        | arr l2 => simp [UmpireScorecardScraper.flattenArrElems] at hfl

/-- C9: whenever `flatten_dict` succeeds, the resulting FlatRow contains
no nested containers: no value in the output mapping is itself a mapping
or a sequence (sequences of scalars having been coerced to a single
string value). -/
theorem C9_flatten_no_nested_containers (d : Record) (parent_key sep : String)
    (r : Record)
    (h : UmpireScorecardScraper.flatten_dict d parent_key sep = some r) :
    ∀ p ∈ r, isScalar p.2 = true := by
  intro p hp
  unfold UmpireScorecardScraper.flatten_dict at h
  cases hi : UmpireScorecardScraper.flattenItems d parent_key sep with
  | none => rw [hi] at h; simp at h
  | some items =>
    rw [hi] at h
    simp only [Option.some.injEq] at h
    subst h
    exact (flatten_parts_scalar (sizeOf d)).1 d parent_key sep items le_rfl
      hi p (mem_dictOfList items p hp)

/-- Witness for C9: the FlatRow obtained from a concrete nested record
has a scalar value at its key. -/
theorem C9_flatten_no_nested_containers_witness :
    isScalar (("a_b", Json.num 1) : String × Json).2 = true :=
  C9_flatten_no_nested_containers [("a", Json.obj [("b", Json.num 1)])]
    "" "_" [("a_b", Json.num 1)] rfl ("a_b", Json.num 1)
    (List.mem_singleton.mpr rfl)

/-- C4: the recursive depth-first flattening rule: a mapping value
recurses with the child key joined by the separator; a two-element
sequence of mappings recurses on each element keyed by its zero-based
index; an empty sequence, or one headed by a non-mapping, is stored as
the sequence's string representation under the current path; a scalar or
null is stored as-is.  In particular `a.b` nests flatten to key `a_b`
and the two-mapping sequence flattens to keys `a_0_x` and `a_1_x`. -/
theorem C4_flattener_recursive_rule :
    (∀ (p k : String) (fields : Record) (sep : String), p ≠ "" →
        UmpireScorecardScraper.flatten_dict [(k, Json.obj fields)] p sep
          = UmpireScorecardScraper.flatten_dict fields (p ++ sep ++ k) sep)
  ∧ (∀ (k : String) (fields : Record) (sep : String),
        UmpireScorecardScraper.flatten_dict [(k, Json.obj fields)] "" sep
          = UmpireScorecardScraper.flatten_dict fields k sep)
  ∧ (∀ (k : String) (f1 f2 : Record) (sep : String) (r1 r2 : Record),
        UmpireScorecardScraper.flatten_dict f1 (k ++ "_" ++ toString 0) sep
          = some r1 →
        UmpireScorecardScraper.flatten_dict f2 (k ++ "_" ++ toString 1) sep
          = some r2 →
        UmpireScorecardScraper.flatten_dict
            [(k, Json.arr [Json.obj f1, Json.obj f2])] "" sep
          = some (dictOfList (r1 ++ r2)))
  ∧ (∀ (k sep : String),
        UmpireScorecardScraper.flatten_dict [(k, Json.arr [])] "" sep
          = some [(k, Json.str (pyStr (Json.arr [])))])
  ∧ (∀ (k sep : String) (h : Json) (t : List Json), isObjJson h = false →
        UmpireScorecardScraper.flatten_dict [(k, Json.arr (h :: t))] "" sep
          = some [(k, Json.str (pyStr (Json.arr (h :: t))))])
  ∧ (∀ (p k sep : String) (v : Json), p ≠ "" → isScalar v = true →
        UmpireScorecardScraper.flatten_dict [(k, v)] p sep
          = some [(p ++ sep ++ k, v)])
  ∧ (∀ (k sep : String) (v : Json), isScalar v = true →
        UmpireScorecardScraper.flatten_dict [(k, v)] "" sep = some [(k, v)])
  ∧ UmpireScorecardScraper.flatten_dict [("a", Json.obj [("b", Json.num 1)])]
      = some [("a_b", Json.num 1)]
  ∧ UmpireScorecardScraper.flatten_dict
      [("a", Json.arr [Json.obj [("x", Json.num 1)],
        Json.obj [("x", Json.num 2)]])]
      = some [("a_0_x", Json.num 1), ("a_1_x", Json.num 2)] := by
  refine ⟨?_, ?_, ?_, ?_, ?_, ?_, ?_, rfl, rfl⟩
  · intro p k fields sep hp
    unfold UmpireScorecardScraper.flatten_dict
    cases hfi : UmpireScorecardScraper.flattenItems fields (p ++ sep ++ k)
        sep with
    | none =>
      simp [UmpireScorecardScraper.flattenItems,
        UmpireScorecardScraper.flattenVal, hp, hfi]
    | some items =>
      simp [UmpireScorecardScraper.flattenItems,
        UmpireScorecardScraper.flattenVal, hp, hfi, dictOfList_idem]
  · intro k fields sep
    unfold UmpireScorecardScraper.flatten_dict
    cases hfi : UmpireScorecardScraper.flattenItems fields k sep with
    | none =>
      simp [UmpireScorecardScraper.flattenItems,
        UmpireScorecardScraper.flattenVal, hfi]
    | some items =>
      simp [UmpireScorecardScraper.flattenItems,
        UmpireScorecardScraper.flattenVal, hfi, dictOfList_idem]
  · intro k f1 f2 sep r1 r2 h1 h2
    unfold UmpireScorecardScraper.flatten_dict at h1 h2 ⊢
    cases hx1 : UmpireScorecardScraper.flattenItems f1
        (k ++ "_" ++ toString 0) sep with
    | none => rw [hx1] at h1; simp at h1
    | some items1 =>
      rw [hx1] at h1
      simp only [Option.some.injEq] at h1
      cases hx2 : UmpireScorecardScraper.flattenItems f2
          (k ++ "_" ++ toString 1) sep with
      | none => rw [hx2] at h2; simp at h2
      | some items2 =>
        rw [hx2] at h2
        simp only [Option.some.injEq] at h2
        simp [UmpireScorecardScraper.flattenItems,
          UmpireScorecardScraper.flattenVal,
          UmpireScorecardScraper.flattenArrElems, hx1, hx2, h1, h2]
  · intro k sep
    simp [UmpireScorecardScraper.flatten_dict,
      UmpireScorecardScraper.flattenItems, UmpireScorecardScraper.flattenVal,
      dictOfList, dictInsert]
  · intro k sep h t hobj
    cases h <;> simp_all [UmpireScorecardScraper.flatten_dict,
      UmpireScorecardScraper.flattenItems, UmpireScorecardScraper.flattenVal,
      isObjJson, dictOfList, dictInsert]
  · intro p k sep v hp hv
    cases v <;> simp_all [UmpireScorecardScraper.flatten_dict,
      UmpireScorecardScraper.flattenItems, UmpireScorecardScraper.flattenVal,
      isScalar, dictOfList, dictInsert]
  · intro k sep v hv
    cases v <;> simp_all [UmpireScorecardScraper.flatten_dict,
      UmpireScorecardScraper.flattenItems, UmpireScorecardScraper.flattenVal,
      isScalar, dictOfList, dictInsert]

/-- Witness for C4: the mapping-recursion law at a concrete non-empty
parent path. -/
theorem C4_flattener_recursive_rule_witness :
    ("r" : String) ≠ ""
  ∧ UmpireScorecardScraper.flatten_dict [("a", Json.obj [("b", Json.num 1)])]
      "r" "_"
      = UmpireScorecardScraper.flatten_dict [("b", Json.num 1)]
          ("r" ++ "_" ++ "a") "_" :=
  ⟨by decide,
    C4_flattener_recursive_rule.1 "r" "a" [("b", Json.num 1)] "_" (by decide)⟩
